import Mathlib

/-
Verification of the EduAir attendance core.

Shallow embedding of the attendance server (server/src/index.js, the
handleAttendance and closeSession handlers), the crypto helpers
(server/src/lib/crypto.js) and the time classifier (server/src/lib/time.js).

Modelling conventions:
  - The cryptographic primitives sha256Hex and hmacSha256Hex from the node
    crypto library are external; they are passed in as function parameters
    (fields of Env), as is Date parsing (new Date(iso).getTime()).
  - The JS Map keyed by "classId:session" holding a Set of uidHash strings is
    modelled as an association list with insertion-ordered, duplicate-free
    value lists; Map.set replaces the first matching key in place, Set.add
    appends when the element is absent (SameValueZero equality on strings is
    string equality).
  - publishToHCS either returns a consensus-timestamp marker or throws; it is
    modelled as a function Payload -> Option String, none meaning a throw.
    Each handler returns the new attendance log, the list of messages that
    were accepted by the ordering service during the call, and the HTTP
    response.
  - JS falsy tests on request fields (!classId etc.) hold for a missing field
    and for the empty string; request fields are Option String.
-/

namespace EduAir

/-- server/src/lib/crypto.js deriveSessionSalt: HMAC of "classId:sessionStartIso"
under the secret, with the HMAC primitive passed as a parameter. -/
def deriveSessionSalt (hmacHex : String → String → String)
    (secret classId sessionStartIso : String) : String :=
  hmacHex secret (classId ++ ":" ++ sessionStartIso)

/-- server/src/lib/crypto.js computeUidHash: sha256 of uidHex ++ sessionSalt,
hex result prefixed with "0x"; the hash primitive is a parameter. -/
def computeUidHash (shaHex : String → String) (uidHex sessionSalt : String) : String :=
  "0x" ++ shaHex (uidHex ++ sessionSalt)

/-- Result record of withinTolerance in server/src/lib/time.js. -/
structure ToleranceResult where
  onTime : Bool
  minutesLate : ℚ
  deriving DecidableEq, Repr

/-- server/src/lib/time.js withinTolerance. The source receives startIso and
converts it with new Date(startIso).getTime(); here startTime is that
millisecond value. Division is exact rational division as in JS numbers. -/
def withinTolerance (ts startTime toleranceMinutes : Int) : ToleranceResult :=
  let diffMs : Int := ts - startTime
  let diffMinutes : ℚ := (diffMs : ℚ) / 60000
  { onTime := decide (diffMinutes ≤ (toleranceMinutes : ℚ)),
    minutesLate := max 0 diffMinutes }

/-- server/src/lib/time.js determineStatus. -/
def determineStatus (ts startTime toleranceMinutes : Int) : String :=
  if (withinTolerance ts startTime toleranceMinutes).onTime then "present_on_time"
  else "late"

/-- A roster entry from data/roster.json. -/
structure Student where
  studentId : String
  cardUidHex : String
  deriving DecidableEq, Repr

/-- A session entry from data/schedule.json. -/
structure SessionInfo where
  id : String
  startIso : String
  deriving DecidableEq, Repr

/-- A class entry of schedule.json. -/
structure ClassSchedule where
  sessions : List SessionInfo
  deriving DecidableEq, Repr

/-- A class entry of roster.json. -/
structure Roster where
  students : List Student
  deriving DecidableEq, Repr

/-- The ambient configuration of the server process: external primitives
(date parsing, crypto), environment variables and the loaded data files. -/
structure Env where
  dateGetTime : String → Int
  hmacSha256Hex : String → String → String
  sha256Hex : String → String
  saltSecret : String
  lateToleranceMin : Int
  topicAttendance : String
  scheduleData : String → Option ClassSchedule
  rosterData : String → Option Roster

/-- index.js findSession. -/
def findSession (env : Env) (classId sessionId : String) : Option SessionInfo :=
  match env.scheduleData classId with
  | none => none
  | some cs => cs.sessions.find? (fun s => s.id == sessionId)

/-- A JS Set of uidHash strings: insertion-ordered duplicate-free list. -/
abbrev LedgerSet := List String

/-- The attendanceLog Map: key "classId:session" to a set of uidHash. -/
abbrev AttLog := List (String × LedgerSet)

/-- Map.get on the attendance log. -/
def logFind : AttLog → String → Option LedgerSet
  | [], _ => none
  | e :: rest, k => if e.1 == k then some e.2 else logFind rest k

/-- Map.has on the attendance log. -/
def logHas (log : AttLog) (k : String) : Bool :=
  (logFind log k).isSome

/-- Map.set: replace the entry in place when the key exists, append otherwise. -/
def logSet : AttLog → String → LedgerSet → AttLog
  | [], k, v => [(k, v)]
  | e :: rest, k, v => if e.1 == k then (k, v) :: rest else e :: logSet rest k v

/-- attendanceLog.get(logKey) || new Set(): a missing key reads as empty. -/
def logGetD (log : AttLog) (k : String) : LedgerSet :=
  (logFind log k).getD []

/-- Set.add: append the element when not already a member. -/
def setAdd (s : LedgerSet) (x : String) : LedgerSet :=
  if s.contains x then s else s ++ [x]

/-- Set.has. -/
def setHas (s : LedgerSet) (x : String) : Bool :=
  s.contains x

/-- A message submitted to the attendance topic. -/
structure Payload where
  type : String
  classId : String
  session : String
  uidHash : String
  status : String
  ts : Int
  deriving DecidableEq, Repr

/-- Body of POST /ingest/attendance. -/
structure IngestReq where
  classId : Option String
  session : Option String
  uidHash : Option String
  ts : Option Int
  deriving DecidableEq, Repr

/-- Responses of handleAttendance: 400, 404, 200 and the catch-all 500. -/
inductive IngestRes where
  | badRequest (message : String)
  | notFound (message : String)
  | success (attendanceStatus consensusTimestamp topicId : String)
  | serverError (message : String)
  deriving DecidableEq, Repr

/-- Body of POST /admin/closeSession. -/
structure CloseReq where
  classId : Option String
  session : Option String
  deriving DecidableEq, Repr

/-- An entry of the absentees array in the closeSession response. -/
structure Absentee where
  studentId : String
  uidHash : String
  deriving DecidableEq, Repr

/-- Responses of the closeSession handler. -/
inductive CloseRes where
  | badRequest (message : String)
  | notFound (message : String)
  | success (classId session : String) (totalStudents attended markedAbsent : Nat)
      (absentees : List Absentee)
  | serverError (message : String)
  deriving DecidableEq, Repr

/-- JS falsy test on an optional string field: missing or empty. -/
def strFalsy : Option String → Bool
  | none => true
  | some s => s == ""

/-- ts || Date.now(): a missing or zero timestamp falls back to now. -/
def tsOrNow : Option Int → Int → Int
  | none, now => now
  | some t, now => if t == 0 then now else t

/-- index.js handleAttendance. Validation, session lookup, status
classification, ledger insertion (before the publish attempt, as in the
source), then the publish; a publish throw is answered by the catch with a
500 while the ledger keeps the inserted pseudonym. -/
def handleAttendance (env : Env) (pub : Payload → Option String) (now : Int)
    (log : AttLog) (req : IngestReq) : AttLog × List Payload × IngestRes :=
  if strFalsy req.classId || strFalsy req.session || strFalsy req.uidHash then
    (log, [], .badRequest "Missing required fields: classId, session, uidHash")
  else
    let classId := req.classId.getD ""
    let session := req.session.getD ""
    let uidHash := req.uidHash.getD ""
    match findSession env classId session with
    | none =>
      (log, [], .notFound ("Session " ++ session ++ " not found for class " ++ classId))
    | some sessionInfo =>
      let timestamp := tsOrNow req.ts now
      let status := determineStatus timestamp (env.dateGetTime sessionInfo.startIso)
        env.lateToleranceMin
      let logKey := classId ++ ":" ++ session
      let log1 := if logHas log logKey then log else logSet log logKey []
      let log2 := logSet log1 logKey (setAdd (logGetD log1 logKey) uidHash)
      let payload : Payload :=
        { type := "attendance", classId := classId, session := session,
          uidHash := uidHash, status := status, ts := timestamp }
      match pub payload with
      | some marker => (log2, [payload], .success status marker env.topicAttendance)
      | none => (log2, [], .serverError "publish failed")

/-- The attendance payload built inside handleAttendance. -/
def ingestPayload (classId session uidHash status : String) (ts : Int) : Payload :=
  { type := "attendance", classId := classId, session := session,
    uidHash := uidHash, status := status, ts := ts }

/-- The absent-marking payload built inside the closeSession loop. -/
def closePayload (classId session uidHash : String) (now : Int) : Payload :=
  { type := "attendance", classId := classId, session := session,
    uidHash := uidHash, status := "absent_marked", ts := now }

/-- Accumulated loop state of the closeSession roster walk: the mutated
attendedHashes set, the absentees array and the successfully published
messages. -/
structure CloseAcc where
  attended : LedgerSet
  absentees : List Absentee
  published : List Payload
  deriving DecidableEq, Repr

/-- The for-loop over roster.students in the closeSession handler: skip
members already present, otherwise publish then push the absentee and add the
hash. A publish throw (none) aborts the walk with the accumulator as left by
the completed iterations; the Bool records whether the walk completed. -/
def closeLoop (env : Env) (pub : Payload → Option String)
    (classId session salt : String) (now : Int) :
    List Student → CloseAcc → CloseAcc × Bool
  | [], acc => (acc, true)
  | student :: rest, acc =>
    let uidHash := computeUidHash env.sha256Hex student.cardUidHex salt
    if setHas acc.attended uidHash then
      closeLoop env pub classId session salt now rest acc
    else
      match pub (closePayload classId session uidHash now) with
      | none => (acc, false)
      | some _ =>
        closeLoop env pub classId session salt now rest
          { attended := setAdd acc.attended uidHash,
            absentees := acc.absentees ++ [{ studentId := student.studentId, uidHash := uidHash }],
            published := acc.published ++ [closePayload classId session uidHash now] }

/-- index.js POST /admin/closeSession. The attendedHashes Set is the very
object stored in the Map, mutated in place during the loop, so on a publish
throw the partial additions persist exactly when the key already existed;
on success the final set is stored and the counts are computed from the
post-loop set size minus the absentee count. -/
def closeSession (env : Env) (pub : Payload → Option String) (now : Int)
    (log : AttLog) (req : CloseReq) : AttLog × List Payload × CloseRes :=
  if strFalsy req.classId || strFalsy req.session then
    (log, [], .badRequest "Missing classId or session")
  else
    let classId := req.classId.getD ""
    let session := req.session.getD ""
    match findSession env classId session with
    | none => (log, [], .notFound ("Session " ++ session ++ " not found"))
    | some sessionInfo =>
      match env.rosterData classId with
      | none => (log, [], .notFound ("Roster not found for class " ++ classId))
      | some roster =>
        let logKey := classId ++ ":" ++ session
        let keyExisted := logHas log logKey
        let attendedHashes := logGetD log logKey
        let sessionSalt :=
          deriveSessionSalt env.hmacSha256Hex env.saltSecret classId sessionInfo.startIso
        let result := closeLoop env pub classId session sessionSalt now roster.students
          { attended := attendedHashes, absentees := [], published := [] }
        if result.2 then
          (logSet log logKey result.1.attended, result.1.published,
           .success classId session roster.students.length
             (result.1.attended.length - result.1.absentees.length)
             result.1.absentees.length result.1.absentees)
        else
          (if keyExisted then logSet log logKey result.1.attended else log,
           result.1.published, .serverError "publish failed")

/-- The pseudonym the closeSession loop computes for a roster member. -/
def studentHash (env : Env) (salt : String) (s : Student) : String :=
  computeUidHash env.sha256Hex s.cardUidHex salt

/-- The roster members the closeSession loop marks absent when started from
the attendance set att: those whose pseudonym is not in att. -/
def absentOf (env : Env) (salt : String) (att : LedgerSet) (ss : List Student) :
    List Student :=
  ss.filter (fun s => !(att.contains (studentHash env salt s)))

/-- One absent-marking iteration of the closeSession loop: the pseudonym is
added to the set, the absentee recorded and the published message appended. -/
def stepAcc (env : Env) (classId session salt : String) (now : Int)
    (s : Student) (acc : CloseAcc) : CloseAcc :=
  ⟨setAdd acc.attended (studentHash env salt s),
   acc.absentees ++ [Absentee.mk s.studentId (studentHash env salt s)],
   acc.published ++ [closePayload classId session (studentHash env salt s) now]⟩

/-- The absentees array carried by a success response (empty otherwise). -/
def CloseRes.absenteesOf : CloseRes → List Absentee
  | .success _ _ _ _ _ abs => abs
  | _ => []

/-- Identity stand-in for the sha256Hex primitive, used in concrete test
environments; it is injective, which concrete scenarios rely on. -/
def shaId : String → String := fun s => s

/-- Keyed stand-in for the hmacSha256Hex primitive used in concrete test
environments: it returns the message unchanged. -/
def hmacId : String → String → String := fun _ d => d

/-- A concrete environment: one class "c" with one session "s" starting at
ISO text "T" (parsed to 0 ms) and a three-student roster. With hmacId the
session salt is "c:T" and with shaId the pseudonyms are "0xAc:T", "0xBc:T"
and "0xCc:T". -/
def envC : Env :=
  { dateGetTime := fun _ => 0,
    hmacSha256Hex := hmacId,
    sha256Hex := shaId,
    saltSecret := "k",
    lateToleranceMin := 5,
    topicAttendance := "0.0.1001",
    scheduleData := fun c => if c == "c" then some ⟨[⟨"s", "T"⟩]⟩ else none,
    rosterData := fun c =>
      if c == "c" then some ⟨[⟨"s-001", "A"⟩, ⟨"s-002", "B"⟩, ⟨"s-003", "C"⟩]⟩ else none }

/-- The three-student roster of envC as a named value. -/
def rosterC : Roster :=
  ⟨[⟨"s-001", "A"⟩, ⟨"s-002", "B"⟩, ⟨"s-003", "C"⟩]⟩

/-- envC restricted to a single-student roster. -/
def envOne : Env :=
  { envC with rosterData := fun c => if c == "c" then some ⟨[⟨"s-001", "A"⟩]⟩ else none }

/-- envC with the roster store empty, for the roster-not-found path. -/
def envNoRoster : Env := { envC with rosterData := fun _ => none }

/-- A publisher that always succeeds. -/
def pubOk : Payload → Option String := fun _ => some "ct"

/-- A publisher that fails exactly on the pseudonym of student B in envC. -/
def pubFailB : Payload → Option String :=
  fun p => if p.uidHash == "0xBc:T" then none else some "ct"

/-- A publisher that always fails. -/
def pubFail : Payload → Option String := fun _ => none

/-- An ingestion request for the pseudonym of student A of envC. -/
def reqA : IngestReq :=
  { classId := some "c", session := some "s", uidHash := some "0xAc:T", ts := some 1 }

/-- An ingestion request with a pseudonym matching no roster member. -/
def reqRogue : IngestReq :=
  { classId := some "c", session := some "s", uidHash := some "0xROGUE", ts := some 1 }

/-- The close request for class "c", session "s". -/
def creqC : CloseReq := { classId := some "c", session := some "s" }

/-- A log in which the pseudonym of student A is already present. -/
def logA : AttLog := [("c:s", ["0xAc:T"])]

/- ------------------------------------------------------------------ -/
/- Helper lemmas on the ledger primitives                             -/
/- ------------------------------------------------------------------ -/

theorem setHas_iff (s : LedgerSet) (x : String) : setHas s x = true ↔ x ∈ s := by
  simp [setHas, List.contains, List.elem_iff]

theorem setAdd_of_mem {s : LedgerSet} {x : String} (h : x ∈ s) : setAdd s x = s := by
  simp [setAdd, List.contains, List.elem_iff, h]

theorem setAdd_of_not_mem {s : LedgerSet} {x : String} (h : x ∉ s) :
    setAdd s x = s ++ [x] := by
  simp [setAdd, List.contains, List.elem_iff, h]

theorem mem_setAdd_iff (s : LedgerSet) (x y : String) :
    y ∈ setAdd s x ↔ y ∈ s ∨ y = x := by
  by_cases h : x ∈ s
  · rw [setAdd_of_mem h]
    exact ⟨fun hy => Or.inl hy, fun hy => hy.elim id (fun e => e ▸ h)⟩
  · rw [setAdd_of_not_mem h]
    simp

theorem logFind_logSet_self (log : AttLog) (k : String) (v : LedgerSet) :
    logFind (logSet log k v) k = some v := by
  induction log with
  | nil => simp [logSet, logFind]
  | cons e rest ih =>
    by_cases h : e.1 == k
    · simp [logSet, h, logFind]
    · simp [logSet, h, logFind, ih]

theorem logGetD_logSet_self (log : AttLog) (k : String) (v : LedgerSet) :
    logGetD (logSet log k v) k = v := by
  simp [logGetD, logFind_logSet_self]

theorem logSet_logSet (log : AttLog) (k : String) (v w : LedgerSet) :
    logSet (logSet log k v) k w = logSet log k w := by
  induction log with
  | nil => simp [logSet]
  | cons e rest ih =>
    by_cases h : e.1 == k
    · simp [logSet, h]
    · simp [logSet, h, ih]

theorem logSet_self_of_find {log : AttLog} {k : String} {v : LedgerSet}
    (h : logFind log k = some v) : logSet log k v = log := by
  induction log with
  | nil => simp [logFind] at h
  | cons e rest ih =>
    by_cases he : e.1 == k
    · rw [logFind] at h
      rw [if_pos he] at h
      have hk : e.1 = k := by simpa using he
      have hv : e.2 = v := by simpa using h
      simp [logSet, he, ← hk, ← hv]
    · rw [logFind] at h
      rw [if_neg he] at h
      simp [logSet, he, ih h]

theorem logHas_of_setHas_getD {log : AttLog} {k x : String}
    (h : setHas (logGetD log k) x = true) : logHas log k = true := by
  cases hf : logFind log k with
  | none => rw [logGetD, hf] at h; simp [setHas, Option.getD] at h
  | some v => simp [logHas, hf]

/- ------------------------------------------------------------------ -/
/- Helper lemmas on strings and counting                              -/
/- ------------------------------------------------------------------ -/

theorem string_append_cancel_left {a b c : String} (h : a ++ b = a ++ c) : b = c := by
  have hd : (a ++ b).data = (a ++ c).data := by rw [h]
  simp [String.data_append] at hd
  exact String.ext hd

/-- Among N distinct hashes, exactly N - K fail to belong to a K-element
duplicate-free subset of them. -/
theorem length_filter_not_contains (hashes L : List String)
    (hn : hashes.Nodup) (hLn : L.Nodup) (hsub : ∀ x ∈ L, x ∈ hashes) :
    (hashes.filter (fun h => !(L.contains h))).length = hashes.length - L.length := by
  have hnd : (hashes.filter (fun h => L.contains h)).Nodup := hn.filter _
  have hfs : (hashes.filter (fun h => L.contains h)).toFinset = L.toFinset := by
    ext x
    simp only [List.mem_toFinset, List.mem_filter, List.contains, List.elem_iff]
    exact ⟨fun hx => hx.2, fun hx => ⟨hsub x hx, hx⟩⟩
  have hin : (hashes.filter (fun h => L.contains h)).length = L.length := by
    calc (hashes.filter (fun h => L.contains h)).length
        = (hashes.filter (fun h => L.contains h)).toFinset.card :=
          (List.toFinset_card_of_nodup hnd).symm
      _ = L.toFinset.card := by rw [hfs]
      _ = L.length := List.toFinset_card_of_nodup hLn
  have hsplit : hashes.length
      = (hashes.filter (fun h => L.contains h)).length
        + (hashes.filter (fun h => !(L.contains h))).length := by
    rw [← List.countP_eq_length_filter, ← List.countP_eq_length_filter]
    have := List.length_eq_countP_add_countP (fun h => L.contains h) hashes
    simpa using this
  omega

/- ------------------------------------------------------------------ -/
/- Helper lemmas on the closeSession loop                             -/
/- ------------------------------------------------------------------ -/

theorem closeLoop_append (env : Env) (pub : Payload → Option String)
    (classId session salt : String) (now : Int) (xs ys : List Student) (acc : CloseAcc) :
    closeLoop env pub classId session salt now (xs ++ ys) acc =
      (if (closeLoop env pub classId session salt now xs acc).2 then
        closeLoop env pub classId session salt now ys
          (closeLoop env pub classId session salt now xs acc).1
      else closeLoop env pub classId session salt now xs acc) := by
  induction xs generalizing acc with
  | nil => simp [closeLoop]
  | cons s rest ih =>
    simp only [List.cons_append, closeLoop]
    by_cases h : setHas acc.attended (computeUidHash env.sha256Hex s.cardUidHex salt)
    · simpa [h] using ih acc
    · simp only [h, Bool.false_eq_true, if_false]
      cases pub (closePayload classId session
          (computeUidHash env.sha256Hex s.cardUidHex salt) now) with
      | none => simp
      | some m => simp [ih]

theorem closeLoop_all_present (env : Env) (pub : Payload → Option String)
    (classId session salt : String) (now : Int) (ss : List Student) (acc : CloseAcc)
    (h : ∀ s ∈ ss, setHas acc.attended (studentHash env salt s) = true) :
    closeLoop env pub classId session salt now ss acc = (acc, true) := by
  induction ss with
  | nil => simp [closeLoop]
  | cons s rest ih =>
    have hs := h s (by simp)
    rw [studentHash] at hs
    simp only [closeLoop, hs, if_true]
    exact ih (fun t ht => h t (by simp [ht]))

theorem closeLoop_cons_present (env : Env) (pub : Payload → Option String)
    (classId session salt : String) (now : Int) (s : Student) (rest : List Student)
    (acc : CloseAcc) (h : setHas acc.attended (studentHash env salt s) = true) :
    closeLoop env pub classId session salt now (s :: rest) acc
      = closeLoop env pub classId session salt now rest acc := by
  rw [studentHash] at h
  simp [closeLoop, h]

theorem closeLoop_cons_pub_ok (env : Env) (pub : Payload → Option String)
    (classId session salt : String) (now : Int) (s : Student) (rest : List Student)
    (acc : CloseAcc) (m : String)
    (h : setHas acc.attended (studentHash env salt s) = false)
    (hp : pub (closePayload classId session (studentHash env salt s) now) = some m) :
    closeLoop env pub classId session salt now (s :: rest) acc
      = closeLoop env pub classId session salt now rest
          (stepAcc env classId session salt now s acc) := by
  rw [studentHash] at h hp
  simp [closeLoop, h, hp, stepAcc, studentHash]

theorem closeLoop_cons_pub_fail (env : Env) (pub : Payload → Option String)
    (classId session salt : String) (now : Int) (s : Student) (rest : List Student)
    (acc : CloseAcc)
    (h : setHas acc.attended (studentHash env salt s) = false)
    (hp : pub (closePayload classId session (studentHash env salt s) now) = none) :
    closeLoop env pub classId session salt now (s :: rest) acc = (acc, false) := by
  rw [studentHash] at h hp
  simp [closeLoop, h, hp]

theorem closeLoop_ok_mono_covers (env : Env) (pub : Payload → Option String)
    (classId session salt : String) (now : Int)
    (hpub : ∀ p, (pub p).isSome = true) (ss : List Student) (acc : CloseAcc) :
    (closeLoop env pub classId session salt now ss acc).2 = true
    ∧ (∀ x ∈ acc.attended, x ∈ (closeLoop env pub classId session salt now ss acc).1.attended)
    ∧ (∀ s ∈ ss, studentHash env salt s
        ∈ (closeLoop env pub classId session salt now ss acc).1.attended) := by
  induction ss generalizing acc with
  | nil => simp [closeLoop]
  | cons s rest ih =>
    by_cases h : setHas acc.attended (studentHash env salt s) = true
    · rw [closeLoop_cons_present env pub classId session salt now s rest acc h]
      obtain ⟨hok, hmono, hcov⟩ := ih acc
      refine ⟨hok, hmono, ?_⟩
      intro t ht
      rcases List.mem_cons.mp ht with rfl | ht
      · exact hmono _ ((setHas_iff _ _).mp h)
      · exact hcov t ht
    · rw [Bool.not_eq_true] at h
      cases hp : pub (closePayload classId session (studentHash env salt s) now) with
      | none =>
        have := hpub (closePayload classId session (studentHash env salt s) now)
        rw [hp] at this; simp at this
      | some m =>
        rw [closeLoop_cons_pub_ok env pub classId session salt now s rest acc m h hp]
        obtain ⟨hok, hmono, hcov⟩ := ih (stepAcc env classId session salt now s acc)
        refine ⟨hok, ?_, ?_⟩
        · intro x hx
          exact hmono x ((mem_setAdd_iff _ _ _).mpr (Or.inl hx))
        · intro t ht
          rcases List.mem_cons.mp ht with rfl | ht
          · exact hmono _ ((mem_setAdd_iff _ _ _).mpr (Or.inr rfl))
          · exact hcov t ht

theorem map_filter_comp (f : Student → String) (p : String → Bool) (l : List Student) :
    (l.map f).filter p = (l.filter (fun s => p (f s))).map f := by
  induction l with
  | nil => rfl
  | cons s rest ih => by_cases h : p (f s) <;> simp [h, ih]

/-- When every publish succeeds and the roster pseudonyms are pairwise
distinct, the loop completes and appends exactly the members whose pseudonym
is missing from the starting set: to the set their pseudonyms, to the
absentees array their records, to the published list their messages. -/
theorem closeLoop_success_spec (env : Env) (pub : Payload → Option String)
    (classId session salt : String) (now : Int)
    (hpub : ∀ p, (pub p).isSome = true) (ss : List Student) (acc : CloseAcc)
    (hnodup : (ss.map (studentHash env salt)).Nodup) :
    closeLoop env pub classId session salt now ss acc =
      (⟨acc.attended ++ (absentOf env salt acc.attended ss).map (studentHash env salt),
        acc.absentees ++ (absentOf env salt acc.attended ss).map
          (fun s => Absentee.mk s.studentId (studentHash env salt s)),
        acc.published ++ (absentOf env salt acc.attended ss).map
          (fun s => closePayload classId session (studentHash env salt s) now)⟩, true) := by
  induction ss generalizing acc with
  | nil => simp [closeLoop, absentOf]
  | cons s rest ih =>
    rw [List.map_cons, List.nodup_cons] at hnodup
    obtain ⟨hhead, htail⟩ := hnodup
    by_cases h : setHas acc.attended (studentHash env salt s) = true
    · rw [closeLoop_cons_present env pub classId session salt now s rest acc h]
      have hmem : studentHash env salt s ∈ acc.attended := (setHas_iff _ _).mp h
      have habs : absentOf env salt acc.attended (s :: rest)
          = absentOf env salt acc.attended rest := by
        simp [absentOf, List.filter_cons, hmem]
      rw [habs]
      exact ih acc htail
    · rw [Bool.not_eq_true] at h
      cases hp : pub (closePayload classId session (studentHash env salt s) now) with
      | none =>
        have := hpub (closePayload classId session (studentHash env salt s) now)
        rw [hp] at this; simp at this
      | some m =>
        rw [closeLoop_cons_pub_ok env pub classId session salt now s rest acc m h hp]
        rw [ih (stepAcc env classId session salt now s acc) htail]
        have hnot : ¬ studentHash env salt s ∈ acc.attended := by
          rw [← setHas_iff, h]; simp
        have hstep : (stepAcc env classId session salt now s acc).attended
            = acc.attended ++ [studentHash env salt s] := by
          rw [stepAcc]
          exact setAdd_of_not_mem hnot
        have habs : absentOf env salt (acc.attended ++ [studentHash env salt s]) rest
            = absentOf env salt acc.attended rest := by
          rw [absentOf, absentOf]
          refine List.filter_congr ?_
          intro t ht
          have hne : studentHash env salt t ≠ studentHash env salt s := by
            intro he
            exact hhead (he ▸ List.mem_map_of_mem (studentHash env salt) ht)
          simp [List.contains, List.elem_eq_mem, List.mem_append, hne]
        have habs2 : absentOf env salt acc.attended (s :: rest)
            = s :: absentOf env salt acc.attended rest := by
          simp [absentOf, List.filter_cons, hnot]
        rw [hstep, habs, habs2]
        simp [stepAcc, hstep, List.append_assoc]

/-- Provenance of the loop accumulator: attended entries and published
messages come from the start accumulator or from the walked roster members,
and the absentees array and published list only ever grow. -/
theorem closeLoop_sub (env : Env) (pub : Payload → Option String)
    (classId session salt : String) (now : Int) (ss : List Student) (acc : CloseAcc) :
    (∀ x ∈ (closeLoop env pub classId session salt now ss acc).1.attended,
       x ∈ acc.attended ∨ ∃ s ∈ ss, x = studentHash env salt s)
    ∧ (∀ p ∈ (closeLoop env pub classId session salt now ss acc).1.published,
       p ∈ acc.published
         ∨ ∃ s ∈ ss, p = closePayload classId session (studentHash env salt s) now)
    ∧ (∀ a ∈ acc.absentees, a ∈ (closeLoop env pub classId session salt now ss acc).1.absentees)
    ∧ (∀ p ∈ acc.published, p ∈ (closeLoop env pub classId session salt now ss acc).1.published) := by
  induction ss generalizing acc with
  | nil =>
    simp only [closeLoop]
    exact ⟨fun x hx => Or.inl hx, fun p hp => Or.inl hp, fun a ha => ha, fun p hp => hp⟩
  | cons s rest ih =>
    by_cases h : setHas acc.attended (studentHash env salt s) = true
    · rw [closeLoop_cons_present env pub classId session salt now s rest acc h]
      obtain ⟨ha, hp, hm, hq⟩ := ih acc
      refine ⟨?_, ?_, hm, hq⟩
      · intro x hx
        rcases ha x hx with hx | ⟨t, ht, rfl⟩
        · exact Or.inl hx
        · exact Or.inr ⟨t, by simp [ht]⟩
      · intro p hps
        rcases hp p hps with hps | ⟨t, ht, rfl⟩
        · exact Or.inl hps
        · exact Or.inr ⟨t, by simp [ht]⟩
    · rw [Bool.not_eq_true] at h
      cases hpu : pub (closePayload classId session (studentHash env salt s) now) with
      | none =>
        rw [closeLoop_cons_pub_fail env pub classId session salt now s rest acc h hpu]
        exact ⟨fun x hx => Or.inl hx, fun p hp => Or.inl hp, fun a ha => ha, fun p hp => hp⟩
      | some m =>
        rw [closeLoop_cons_pub_ok env pub classId session salt now s rest acc m h hpu]
        obtain ⟨ha, hp, hm, hq⟩ := ih (stepAcc env classId session salt now s acc)
        refine ⟨?_, ?_, ?_, ?_⟩
        · intro x hx
          rcases ha x hx with hx | ⟨t, ht, rfl⟩
          · rcases (mem_setAdd_iff _ _ _).mp hx with hx | rfl
            · exact Or.inl hx
            · exact Or.inr ⟨s, by simp⟩
          · exact Or.inr ⟨t, by simp [ht]⟩
        · intro p hps
          rcases hp p hps with hps | ⟨t, ht, rfl⟩
          · rcases List.mem_append.mp hps with hps | hps
            · exact Or.inl hps
            · exact Or.inr ⟨s, by simpa using hps⟩
          · exact Or.inr ⟨t, by simp [ht]⟩
        · intro a ha2
          exact hm a (List.mem_append.mpr (Or.inl ha2))
        · intro p hp2
          exact hq p (List.mem_append.mpr (Or.inl hp2))

/-- The loop completes when the publish of every walked pseudonym succeeds. -/
theorem closeLoop_ok_of_pub (env : Env) (pub : Payload → Option String)
    (classId session salt : String) (now : Int) (ss : List Student) (acc : CloseAcc)
    (hok : ∀ s ∈ ss,
      (pub (closePayload classId session (studentHash env salt s) now)).isSome = true) :
    (closeLoop env pub classId session salt now ss acc).2 = true := by
  induction ss generalizing acc with
  | nil => simp [closeLoop]
  | cons s rest ih =>
    by_cases h : setHas acc.attended (studentHash env salt s) = true
    · rw [closeLoop_cons_present env pub classId session salt now s rest acc h]
      exact ih acc (fun t ht => hok t (by simp [ht]))
    · rw [Bool.not_eq_true] at h
      cases hpu : pub (closePayload classId session (studentHash env salt s) now) with
      | none =>
        have := hok s (by simp)
        rw [hpu] at this; simp at this
      | some m =>
        rw [closeLoop_cons_pub_ok env pub classId session salt now s rest acc m h hpu]
        exact ih (stepAcc env classId session salt now s acc) (fun t ht => hok t (by simp [ht]))

/-- The rational on-time test of withinTolerance, characterized over the
integers (division by the positive constant 60000 cleared). -/
theorem withinTolerance_onTime_iff_int (ts startTime tol : Int) :
    (withinTolerance ts startTime tol).onTime = true ↔ ts - startTime ≤ tol * 60000 := by
  rw [withinTolerance]
  simp only [decide_eq_true_iff]
  rw [div_le_iff₀ (by norm_num : (0:ℚ) < 60000)]
  constructor
  · intro h; exact_mod_cast h
  · intro h; exact_mod_cast h

/-- Integer-level evaluation rule for determineStatus. -/
theorem determineStatus_int (ts startTime tol : Int) :
    determineStatus ts startTime tol
      = if ts - startTime ≤ tol * 60000 then "present_on_time" else "late" := by
  rw [determineStatus]
  by_cases h : ts - startTime ≤ tol * 60000
  · rw [if_pos h, if_pos ((withinTolerance_onTime_iff_int ts startTime tol).mpr h)]
  · rw [if_neg h, if_neg]
    intro hc
    exact h ((withinTolerance_onTime_iff_int ts startTime tol).mp hc)

/- ------------------------------------------------------------------ -/
/- Claim theorems                                                     -/
/- ------------------------------------------------------------------ -/

/-- C6: the time classifier reports on-time exactly when the elapsed minutes
(ts - start) / 60000 do not exceed the tolerance; the exact boundary instant
start + tolerance*60000 is on-time, one millisecond later is late, an event
before the session start is on-time (for a nonnegative tolerance), and the
classifier never produces an absent status. -/
theorem c6_time_classification (ts startTime tol : Int) :
    ((withinTolerance ts startTime tol).onTime = true
      ↔ ((ts : ℚ) - (startTime : ℚ)) / 60000 ≤ (tol : ℚ))
    ∧ determineStatus (startTime + tol * 60000) startTime tol = "present_on_time"
    ∧ determineStatus (startTime + tol * 60000 + 1) startTime tol = "late"
    ∧ (0 ≤ tol → ts < startTime → determineStatus ts startTime tol = "present_on_time")
    ∧ determineStatus ts startTime tol ≠ "absent_marked"
    ∧ determineStatus ts startTime tol ≠ "absent" := by
  have hiff : ∀ a b : Int, (withinTolerance a b tol).onTime = true
      ↔ ((a : ℚ) - (b : ℚ)) / 60000 ≤ (tol : ℚ) := by
    intro a b
    rw [withinTolerance]
    simp only [decide_eq_true_iff]
    push_cast
    rfl
  refine ⟨hiff ts startTime, ?_, ?_, ?_, ?_, ?_⟩
  · rw [determineStatus, if_pos]
    rw [hiff]
    push_cast
    rw [div_le_iff₀ (by norm_num : (0:ℚ) < 60000)]
    linarith
  · rw [determineStatus, if_neg]
    rw [hiff]
    push_cast
    rw [div_le_iff₀ (by norm_num : (0:ℚ) < 60000)]
    intro hle
    nlinarith
  · intro htol hlt
    rw [determineStatus, if_pos]
    rw [hiff]
    have h1 : ((ts : ℚ) - (startTime : ℚ)) / 60000 ≤ 0 := by
      apply div_nonpos_of_nonpos_of_nonneg
      · have : (ts : ℚ) < (startTime : ℚ) := by exact_mod_cast hlt
        linarith
      · norm_num
    have h2 : (0 : ℚ) ≤ (tol : ℚ) := by exact_mod_cast htol
    linarith
  · rw [determineStatus]
    by_cases h : (withinTolerance ts startTime tol).onTime <;> simp [h]
  · rw [determineStatus]
    by_cases h : (withinTolerance ts startTime tol).onTime <;> simp [h]

/-- Witness for C6: one minute before a session start with tolerance 5 the
classifier reports on-time. -/
theorem c6_witness : determineStatus (-60000) 0 5 = "present_on_time" :=
  (c6_time_classification (-60000) 0 5).2.2.2.1 (by decide) (by decide)

/-- C7: for a fixed raw token, secret and class, two different session start
strings give different salts and hence different pseudonyms, provided the
keyed hash (for the fixed secret) and the hash primitive are collision-free;
within one session the pseudonym of a token is reproducible. -/
theorem c7_unlinkability (hmacHex : String → String → String) (shaHex : String → String)
    (secret classId token s1 s2 : String)
    (hHmacInj : Function.Injective (hmacHex secret))
    (hShaInj : Function.Injective shaHex)
    (hne : s1 ≠ s2) :
    deriveSessionSalt hmacHex secret classId s1 ≠ deriveSessionSalt hmacHex secret classId s2
    ∧ computeUidHash shaHex token (deriveSessionSalt hmacHex secret classId s1)
        ≠ computeUidHash shaHex token (deriveSessionSalt hmacHex secret classId s2)
    ∧ ∀ t : String, computeUidHash shaHex t (deriveSessionSalt hmacHex secret classId s1)
        = computeUidHash shaHex t (deriveSessionSalt hmacHex secret classId s1) := by
  have hsalt : deriveSessionSalt hmacHex secret classId s1
      ≠ deriveSessionSalt hmacHex secret classId s2 := by
    intro he
    rw [deriveSessionSalt, deriveSessionSalt] at he
    exact hne (string_append_cancel_left (hHmacInj he))
  refine ⟨hsalt, ?_, fun t => rfl⟩
  intro he
  rw [computeUidHash, computeUidHash] at he
  have h1 := string_append_cancel_left he
  have h2 := hShaInj h1
  exact hsalt (string_append_cancel_left h2)

/-- Witness for C7 with injective stand-ins for the hash primitives. -/
theorem c7_witness :
    deriveSessionSalt (fun _ d => d) "k" "c" "a" ≠ deriveSessionSalt (fun _ d => d) "k" "c" "b"
    ∧ computeUidHash (fun d => d) "t" (deriveSessionSalt (fun _ d => d) "k" "c" "a")
        ≠ computeUidHash (fun d => d) "t" (deriveSessionSalt (fun _ d => d) "k" "c" "b")
    ∧ ∀ t : String, computeUidHash (fun d => d) t (deriveSessionSalt (fun _ d => d) "k" "c" "a")
        = computeUidHash (fun d => d) t (deriveSessionSalt (fun _ d => d) "k" "c" "a") :=
  c7_unlinkability (fun _ d => d) (fun d => d) "k" "c" "t" "a" "b"
    (fun _ _ h => h) (fun _ _ h => h) (by decide)

/-- C9: salt derivation joins class id and session start with a colon, so two
distinct (classId, start) pairs with the same joined string receive the same
salt, and a token then receives the same pseudonym in both sessions. -/
theorem c9_colon_ambiguity (hmacHex : String → String → String) (shaHex : String → String)
    (secret c1 s1 c2 s2 token : String)
    (hdist : (c1, s1) ≠ (c2, s2))
    (hjoin : c1 ++ ":" ++ s1 = c2 ++ ":" ++ s2) :
    deriveSessionSalt hmacHex secret c1 s1 = deriveSessionSalt hmacHex secret c2 s2
    ∧ computeUidHash shaHex token (deriveSessionSalt hmacHex secret c1 s1)
        = computeUidHash shaHex token (deriveSessionSalt hmacHex secret c2 s2) := by
  rw [deriveSessionSalt, deriveSessionSalt, hjoin]
  exact ⟨rfl, rfl⟩

/-- Witness for C9: the pairs ("a", "b:c") and ("a:b", "c") both join to
"a:b:c" and collide. -/
theorem c9_witness :
    deriveSessionSalt hmacId "k" "a" "b:c" = deriveSessionSalt hmacId "k" "a:b" "c"
    ∧ computeUidHash shaId "t" (deriveSessionSalt hmacId "k" "a" "b:c")
        = computeUidHash shaId "t" (deriveSessionSalt hmacId "k" "a:b" "c") :=
  c9_colon_ambiguity hmacId shaId "k" "a" "b:c" "a:b" "c" "t" (by decide) (by decide)

/-- C8: a request with a missing required field is answered with the
validation error and no other effect; a request naming an unknown class or
session (or a class without roster) is answered with the not-found error and
no other effect; these rejections happen before any ledger write or publish
(the returned log is the input log, nothing is published) and before salt
derivation (the outcome is unchanged under any salt secret and keyed-hash
primitive). -/
theorem c8_validation_no_side_effects (env : Env) (pub : Payload → Option String)
    (now : Int) (log : AttLog) (req : IngestReq) (creq : CloseReq)
    (f : String → String → String) (sec : String) :
    ((strFalsy req.classId || strFalsy req.session || strFalsy req.uidHash) = true →
      handleAttendance env pub now log req
        = (log, [], .badRequest "Missing required fields: classId, session, uidHash"))
    ∧ ((strFalsy req.classId || strFalsy req.session || strFalsy req.uidHash) = false →
      findSession env (req.classId.getD "") (req.session.getD "") = none →
      handleAttendance env pub now log req
        = (log, [], .notFound ("Session " ++ req.session.getD ""
            ++ " not found for class " ++ req.classId.getD "")))
    ∧ handleAttendance { env with hmacSha256Hex := f, saltSecret := sec } pub now log req
        = handleAttendance env pub now log req
    ∧ ((strFalsy creq.classId || strFalsy creq.session) = true →
      closeSession env pub now log creq = (log, [], .badRequest "Missing classId or session")
      ∧ closeSession { env with hmacSha256Hex := f, saltSecret := sec } pub now log creq
          = (log, [], .badRequest "Missing classId or session"))
    ∧ ((strFalsy creq.classId || strFalsy creq.session) = false →
      findSession env (creq.classId.getD "") (creq.session.getD "") = none →
      closeSession env pub now log creq
        = (log, [], .notFound ("Session " ++ creq.session.getD "" ++ " not found"))
      ∧ closeSession { env with hmacSha256Hex := f, saltSecret := sec } pub now log creq
          = (log, [], .notFound ("Session " ++ creq.session.getD "" ++ " not found")))
    ∧ (∀ info, (strFalsy creq.classId || strFalsy creq.session) = false →
      findSession env (creq.classId.getD "") (creq.session.getD "") = some info →
      env.rosterData (creq.classId.getD "") = none →
      closeSession env pub now log creq
        = (log, [], .notFound ("Roster not found for class " ++ creq.classId.getD ""))
      ∧ closeSession { env with hmacSha256Hex := f, saltSecret := sec } pub now log creq
          = (log, [], .notFound ("Roster not found for class " ++ creq.classId.getD ""))) := by
  refine ⟨?_, ?_, rfl, ?_, ?_, ?_⟩
  · intro hmiss
    rw [handleAttendance, if_pos hmiss]
  · intro hmiss hfind
    rw [handleAttendance, if_neg (by rw [hmiss]; simp)]
    simp only [hfind]
  · intro hmiss
    constructor
    · rw [closeSession, if_pos hmiss]
    · rw [closeSession, if_pos hmiss]
  · intro hmiss hfind
    have hfind2 : findSession { env with hmacSha256Hex := f, saltSecret := sec }
        (creq.classId.getD "") (creq.session.getD "") = none := hfind
    constructor
    · rw [closeSession, if_neg (by rw [hmiss]; simp)]
      simp only [hfind]
    · rw [closeSession, if_neg (by rw [hmiss]; simp)]
      simp only [hfind2]
  · intro info hmiss hfind hroster
    have hfind2 : findSession { env with hmacSha256Hex := f, saltSecret := sec }
        (creq.classId.getD "") (creq.session.getD "") = some info := hfind
    have hroster2 : ({ env with hmacSha256Hex := f, saltSecret := sec } : Env).rosterData
        (creq.classId.getD "") = none := hroster
    constructor
    · rw [closeSession, if_neg (by rw [hmiss]; simp)]
      simp only [hfind, hroster]
    · rw [closeSession, if_neg (by rw [hmiss]; simp)]
      simp only [hfind2, hroster]

/-- Witness for C8: the rejection paths evaluated at concrete inputs leave
the log untouched and publish nothing. -/
theorem c8_witness :
    handleAttendance envC pubOk 0 logA ⟨none, some "s", some "0xAc:T", some 1⟩
      = (logA, [], IngestRes.badRequest "Missing required fields: classId, session, uidHash")
    ∧ handleAttendance envC pubOk 0 logA ⟨some "c", some "zz", some "0xAc:T", some 1⟩
      = (logA, [], IngestRes.notFound ("Session " ++ "zz" ++ " not found for class " ++ "c"))
    ∧ closeSession envC pubOk 0 logA ⟨some "c", none⟩
      = (logA, [], CloseRes.badRequest "Missing classId or session")
    ∧ closeSession envC pubOk 0 logA ⟨some "c", some "zz"⟩
      = (logA, [], CloseRes.notFound ("Session " ++ "zz" ++ " not found"))
    ∧ closeSession envNoRoster pubOk 0 logA creqC
      = (logA, [], CloseRes.notFound ("Roster not found for class " ++ "c")) := by
  refine ⟨?_, ?_, ?_, ?_, ?_⟩
  · exact (c8_validation_no_side_effects envC pubOk 0 logA
      ⟨none, some "s", some "0xAc:T", some 1⟩ creqC hmacId "x").1 (by decide)
  · exact (c8_validation_no_side_effects envC pubOk 0 logA
      ⟨some "c", some "zz", some "0xAc:T", some 1⟩ creqC hmacId "x").2.1 (by decide) (by decide)
  · exact ((c8_validation_no_side_effects envC pubOk 0 logA reqA
      ⟨some "c", none⟩ hmacId "x").2.2.2.1 (by decide)).1
  · exact ((c8_validation_no_side_effects envC pubOk 0 logA reqA
      ⟨some "c", some "zz"⟩ hmacId "x").2.2.2.2.1 (by decide) (by decide)).1
  · exact ((c8_validation_no_side_effects envNoRoster pubOk 0 logA reqA
      creqC hmacId "x").2.2.2.2.2 ⟨"s", "T"⟩ (by decide) (by decide) (by decide)).1

/-- C4 counterexample: a first tap of pseudonym "0xAc:T" yields the ledger
logA; a second identical tap leaves the ledger as it was but the duplicate is
published again (the published list of the second call is nonempty), and the
response carries no duplicate indication (it equals the first response). -/
theorem c4_counterexample :
    (handleAttendance envC pubOk 0 [] reqA).1 = logA
    ∧ (handleAttendance envC pubOk 0 logA reqA).2.1 ≠ []
    ∧ (handleAttendance envC pubOk 0 logA reqA).1 = logA
    ∧ (handleAttendance envC pubOk 0 logA reqA).2.2
        = (handleAttendance envC pubOk 0 [] reqA).2.2 := by
  norm_num [handleAttendance, envC, reqA, pubOk, strFalsy, findSession, tsOrNow,
    determineStatus_int, logHas, logFind, logSet, logGetD, setAdd, logA]
  decide

/-- C4 (amended): re-recording a pseudonym already in the per-session set
leaves the attendance log unchanged, but the handler reports no
alreadyPresent indication — the response is the plain success shape — and
the duplicate tap is published again (one more message is submitted). -/
theorem c4_duplicate_tap (env : Env) (pub : Payload → Option String) (now : Int)
    (log : AttLog) (req : IngestReq) (classId session uidHash : String)
    (info : SessionInfo) (marker : String)
    (hc : req.classId = some classId) (hs : req.session = some session)
    (hu : req.uidHash = some uidHash)
    (hc1 : classId ≠ "") (hs1 : session ≠ "") (hu1 : uidHash ≠ "")
    (hfind : findSession env classId session = some info)
    (hmem : setHas (logGetD log (classId ++ ":" ++ session)) uidHash = true)
    (hpub : pub (ingestPayload classId session uidHash
        (determineStatus (tsOrNow req.ts now) (env.dateGetTime info.startIso)
          env.lateToleranceMin) (tsOrNow req.ts now)) = some marker) :
    handleAttendance env pub now log req
      = (log,
         [ingestPayload classId session uidHash
           (determineStatus (tsOrNow req.ts now) (env.dateGetTime info.startIso)
             env.lateToleranceMin) (tsOrNow req.ts now)],
         .success (determineStatus (tsOrNow req.ts now) (env.dateGetTime info.startIso)
           env.lateToleranceMin) marker env.topicAttendance) := by
  have hkey : logHas log (classId ++ ":" ++ session) = true := logHas_of_setHas_getD hmem
  have hmem2 : uidHash ∈ logGetD log (classId ++ ":" ++ session) := (setHas_iff _ _).mp hmem
  have hadd : setAdd (logGetD log (classId ++ ":" ++ session)) uidHash
      = logGetD log (classId ++ ":" ++ session) := setAdd_of_mem hmem2
  have hset : logSet log (classId ++ ":" ++ session)
      (logGetD log (classId ++ ":" ++ session)) = log := by
    cases hf : logFind log (classId ++ ":" ++ session) with
    | none => rw [logHas, hf] at hkey; simp at hkey
    | some v =>
      have : logGetD log (classId ++ ":" ++ session) = v := by rw [logGetD, hf]; rfl
      rw [this]
      exact logSet_self_of_find hf
  rw [ingestPayload] at hpub
  rw [handleAttendance, if_neg (by rw [hc, hs, hu]; simp [strFalsy, hc1, hs1, hu1])]
  simp only [hc, hs, hu, Option.getD_some, hfind, hkey, if_true, hadd, hset, hpub,
    ingestPayload]

/-- Witness for C4 (amended) at a concrete duplicate tap. -/
theorem c4_witness :
    handleAttendance envC pubOk 0 logA reqA
      = (logA,
         [ingestPayload "c" "s" "0xAc:T"
           (determineStatus (tsOrNow (some 1) 0) (envC.dateGetTime "T")
             envC.lateToleranceMin) (tsOrNow (some 1) 0)],
         .success (determineStatus (tsOrNow (some 1) 0) (envC.dateGetTime "T")
           envC.lateToleranceMin) "ct" envC.topicAttendance) :=
  c4_duplicate_tap envC pubOk 0 logA reqA "c" "s" "0xAc:T" ⟨"s", "T"⟩ "ct"
    rfl rfl rfl (by decide) (by decide) (by decide) (by decide) (by decide) rfl

/-- The two-step ledger write of handleAttendance (ensure the key, then add
to the fetched set) collapses to a single keyed update. -/
theorem ensure_then_add (log : AttLog) (k x : String) :
    logSet (if logHas log k then log else logSet log k [])
        k (setAdd (logGetD (if logHas log k then log else logSet log k []) k) x)
      = logSet log k (setAdd (logGetD log k) x) := by
  by_cases h : logHas log k
  · rw [if_pos h]
  · rw [if_neg h, logGetD_logSet_self, logSet_logSet]
    have hget : logGetD log k = [] := by
      rw [logHas] at h
      rw [logGetD]
      cases hf : logFind log k with
      | none => rfl
      | some v => rw [hf] at h; simp at h
    rw [hget]

/-- C5 counterexample: with an always failing publisher, ingesting pseudonym
"0xAc:T" into an empty ledger answers a 500 and publishes nothing, yet the
per-session set afterwards differs from the one before the call: it now
contains the pseudonym. -/
theorem c5_counterexample :
    (handleAttendance envC pubFail 0 [] reqA).2.2 = IngestRes.serverError "publish failed"
    ∧ (handleAttendance envC pubFail 0 [] reqA).2.1 = []
    ∧ logGetD (handleAttendance envC pubFail 0 [] reqA).1 "c:s" ≠ logGetD ([] : AttLog) "c:s"
    ∧ logGetD (handleAttendance envC pubFail 0 [] reqA).1 "c:s" = ["0xAc:T"] := by
  norm_num [handleAttendance, envC, reqA, pubFail, strFalsy, findSession, tsOrNow,
    determineStatus_int, logHas, logFind, logSet, logGetD, setAdd]
  decide

/-- C5 (amended): when the publish fails during ingestion the handler
surfaces the failure as a 500 and nothing is published, but the ledger has
already been mutated: the resulting log is the input log with the pseudonym
added to the per-session set (the add precedes the publish attempt), so the
pseudonym is recorded present after the failed call. -/
theorem c5_publish_failure_mutates_ledger (env : Env) (pub : Payload → Option String)
    (now : Int) (log : AttLog) (req : IngestReq) (classId session uidHash : String)
    (info : SessionInfo)
    (hc : req.classId = some classId) (hs : req.session = some session)
    (hu : req.uidHash = some uidHash)
    (hc1 : classId ≠ "") (hs1 : session ≠ "") (hu1 : uidHash ≠ "")
    (hfind : findSession env classId session = some info)
    (hpub : pub (ingestPayload classId session uidHash
        (determineStatus (tsOrNow req.ts now) (env.dateGetTime info.startIso)
          env.lateToleranceMin) (tsOrNow req.ts now)) = none) :
    handleAttendance env pub now log req
      = (logSet log (classId ++ ":" ++ session)
           (setAdd (logGetD log (classId ++ ":" ++ session)) uidHash),
         [], .serverError "publish failed")
    ∧ setHas (logGetD (handleAttendance env pub now log req).1
        (classId ++ ":" ++ session)) uidHash = true := by
  rw [ingestPayload] at hpub
  have hmain : handleAttendance env pub now log req
      = (logSet log (classId ++ ":" ++ session)
           (setAdd (logGetD log (classId ++ ":" ++ session)) uidHash),
         [], .serverError "publish failed") := by
    rw [handleAttendance, if_neg (by rw [hc, hs, hu]; simp [strFalsy, hc1, hs1, hu1])]
    simp only [hc, hs, hu, Option.getD_some, hfind, hpub]
    rw [ensure_then_add]
  refine ⟨hmain, ?_⟩
  rw [hmain]
  simp only [logGetD_logSet_self]
  rw [setHas_iff]
  exact (mem_setAdd_iff _ _ _).mpr (Or.inr rfl)

/-- Witness for C5 (amended) at a concrete failing ingest. -/
theorem c5_witness :
    handleAttendance envC pubFail 0 logA reqRogue
      = (logSet logA ("c" ++ ":" ++ "s")
           (setAdd (logGetD logA ("c" ++ ":" ++ "s")) "0xROGUE"),
         [], .serverError "publish failed")
    ∧ setHas (logGetD (handleAttendance envC pubFail 0 logA reqRogue).1
        ("c" ++ ":" ++ "s")) "0xROGUE" = true :=
  c5_publish_failure_mutates_ledger envC pubFail 0 logA reqRogue "c" "s" "0xROGUE"
    ⟨"s", "T"⟩ rfl rfl rfl (by decide) (by decide) (by decide) (by decide) rfl

/-- C10: the ingestion path accepts a pseudonym that matches no roster
member (the rogue tap is answered with success and enters the ledger), and
closeSession then counts it: with a one-student roster and only the rogue
pseudonym recorded, the close marks the single student absent and reports
attended = 1 although no roster member was recorded present, and the
post-close ledger holds 2 pseudonyms, more than the roster size 1. -/
theorem c10_rogue_pseudonym_inflates_counts :
    (handleAttendance envOne pubOk 0 [] reqRogue).2.2
      = IngestRes.success "present_on_time" "ct" "0.0.1001"
    ∧ (closeSession envOne pubOk 7 (handleAttendance envOne pubOk 0 [] reqRogue).1 creqC).2.2
      = CloseRes.success "c" "s" 1 1 1 [⟨"s-001", "0xAc:T"⟩]
    ∧ (logGetD (closeSession envOne pubOk 7
        (handleAttendance envOne pubOk 0 [] reqRogue).1 creqC).1 "c:s")
      = ["0xROGUE", "0xAc:T"]
    ∧ ((envOne.rosterData "c").getD ⟨[]⟩).students.length = 1 := by
  norm_num [handleAttendance, envOne, envC, reqRogue, pubOk, strFalsy, findSession,
    tsOrNow, determineStatus_int, logHas, logFind, logSet, logGetD, setAdd, creqC,
    closeSession, closeLoop, closePayload, computeUidHash, deriveSessionSalt,
    setHas, hmacId, shaId]
  decide

/-- C1: with a roster of N members whose session pseudonyms are pairwise
distinct, a pre-close ledger holding exactly K < N pseudonyms, each the
pseudonym of some roster member, and a publisher that always succeeds,
closeSession publishes exactly N - K absent-marked records (one per roster
member whose pseudonym is missing), reports totalStudents = N,
attended = K and markedAbsent = N - K, and afterwards the per-session
ledger set holds exactly N pseudonyms. -/
theorem c1_reconciliation_completeness (env : Env) (pub : Payload → Option String)
    (now : Int) (log : AttLog) (classId session salt : String)
    (info : SessionInfo) (roster : Roster) (L : LedgerSet)
    (hc1 : classId ≠ "") (hs1 : session ≠ "")
    (hfind : findSession env classId session = some info)
    (hroster : env.rosterData classId = some roster)
    (hpub : ∀ p, (pub p).isSome = true)
    (hsalt : salt = deriveSessionSalt env.hmacSha256Hex env.saltSecret classId info.startIso)
    (hL : logGetD log (classId ++ ":" ++ session) = L)
    (hnodup : (roster.students.map (studentHash env salt)).Nodup)
    (hLnodup : L.Nodup)
    (hsub : ∀ x ∈ L, x ∈ roster.students.map (studentHash env salt))
    (hKN : L.length < roster.students.length) :
    (closeSession env pub now log ⟨some classId, some session⟩).2.2
      = CloseRes.success classId session roster.students.length L.length
          (roster.students.length - L.length)
          ((absentOf env salt L roster.students).map
            (fun s => Absentee.mk s.studentId (studentHash env salt s)))
    ∧ (closeSession env pub now log ⟨some classId, some session⟩).2.1.length
        = roster.students.length - L.length
    ∧ (∀ p ∈ (closeSession env pub now log ⟨some classId, some session⟩).2.1,
        p.status = "absent_marked")
    ∧ (logGetD (closeSession env pub now log ⟨some classId, some session⟩).1
        (classId ++ ":" ++ session)).length = roster.students.length := by
  have hA : (absentOf env salt L roster.students).length
      = roster.students.length - L.length := by
    have h1 := map_filter_comp (studentHash env salt)
      (fun h => !(L.contains h)) roster.students
    have h2 := length_filter_not_contains (roster.students.map (studentHash env salt)) L
      hnodup hLnodup hsub
    rw [absentOf]
    calc (roster.students.filter
          (fun s => !(L.contains (studentHash env salt s)))).length
        = ((roster.students.filter
            (fun s => !(L.contains (studentHash env salt s)))).map
              (studentHash env salt)).length := (List.length_map _ _).symm
      _ = ((roster.students.map (studentHash env salt)).filter
            (fun h => !(L.contains h))).length := by
              rw [h1]
      _ = roster.students.length - L.length := by
              rw [h2, List.length_map]
  have hrun : closeSession env pub now log ⟨some classId, some session⟩
      = (logSet log (classId ++ ":" ++ session)
           (L ++ (absentOf env salt L roster.students).map (studentHash env salt)),
         (absentOf env salt L roster.students).map
           (fun s => closePayload classId session (studentHash env salt s) now),
         CloseRes.success classId session roster.students.length
           ((L ++ (absentOf env salt L roster.students).map (studentHash env salt)).length
             - ((absentOf env salt L roster.students).map
                 (fun s => Absentee.mk s.studentId (studentHash env salt s))).length)
           ((absentOf env salt L roster.students).map
             (fun s => Absentee.mk s.studentId (studentHash env salt s))).length
           ((absentOf env salt L roster.students).map
             (fun s => Absentee.mk s.studentId (studentHash env salt s)))) := by
    rw [closeSession, if_neg (by simp [strFalsy, hc1, hs1])]
    simp only [Option.getD_some, hfind, hroster, hL, ← hsalt]
    rw [closeLoop_success_spec env pub classId session salt now hpub roster.students
      ⟨L, [], []⟩ hnodup]
    simp
  rw [hrun]
  have hlen1 : ((absentOf env salt L roster.students).map
      (fun s => Absentee.mk s.studentId (studentHash env salt s))).length
      = roster.students.length - L.length := by
    rw [List.length_map, hA]
  have hlen2 : (L ++ (absentOf env salt L roster.students).map
      (studentHash env salt)).length = roster.students.length := by
    rw [List.length_append, List.length_map, hA]
    omega
  refine ⟨?_, ?_, ?_, ?_⟩
  · rw [hlen1, hlen2]
    have : roster.students.length - (roster.students.length - L.length) = L.length := by
      omega
    rw [this]
  · rw [List.length_map, hA]
  · intro p hp
    obtain ⟨s, _, rfl⟩ := List.mem_map.mp hp
    rfl
  · rw [logGetD_logSet_self, hlen2]

/-- Witness for C1: roster of three, one pseudonym already present, both
marked-absent counts and the final ledger size check out. -/
theorem c1_witness :
    (closeSession envC pubOk 7 logA ⟨some "c", some "s"⟩).2.2
      = CloseRes.success "c" "s" 3 1 2
          ((absentOf envC "c:T" ["0xAc:T"] rosterC.students).map
            (fun s => Absentee.mk s.studentId (studentHash envC "c:T" s)))
    ∧ (closeSession envC pubOk 7 logA ⟨some "c", some "s"⟩).2.1.length = 2
    ∧ (∀ p ∈ (closeSession envC pubOk 7 logA ⟨some "c", some "s"⟩).2.1,
        p.status = "absent_marked")
    ∧ (logGetD (closeSession envC pubOk 7 logA ⟨some "c", some "s"⟩).1
        ("c" ++ ":" ++ "s")).length = 3 := by
  have h := c1_reconciliation_completeness envC pubOk 7 logA "c" "s" "c:T"
    ⟨"s", "T"⟩ rosterC ["0xAc:T"]
    (by decide) (by decide) rfl rfl (fun p => rfl) rfl rfl
    (by decide) (by decide) (by decide) (by decide)
  exact ⟨h.1, h.2.1, h.2.2.1, h.2.2.2⟩

/-- Evaluation rule for closeSession once validation and the two lookups
succeed: the loop runs on the stored set and the branches follow its flag. -/
theorem closeSession_run (env : Env) (pub : Payload → Option String) (now : Int)
    (log : AttLog) (classId session : String) (info : SessionInfo) (roster : Roster)
    (hc1 : classId ≠ "") (hs1 : session ≠ "")
    (hfind : findSession env classId session = some info)
    (hroster : env.rosterData classId = some roster) :
    closeSession env pub now log ⟨some classId, some session⟩
      = (if (closeLoop env pub classId session
            (deriveSessionSalt env.hmacSha256Hex env.saltSecret classId info.startIso)
            now roster.students ⟨logGetD log (classId ++ ":" ++ session), [], []⟩).2 then
          (logSet log (classId ++ ":" ++ session)
             (closeLoop env pub classId session
               (deriveSessionSalt env.hmacSha256Hex env.saltSecret classId info.startIso)
               now roster.students
               ⟨logGetD log (classId ++ ":" ++ session), [], []⟩).1.attended,
           (closeLoop env pub classId session
             (deriveSessionSalt env.hmacSha256Hex env.saltSecret classId info.startIso)
             now roster.students
             ⟨logGetD log (classId ++ ":" ++ session), [], []⟩).1.published,
           CloseRes.success classId session roster.students.length
             ((closeLoop env pub classId session
               (deriveSessionSalt env.hmacSha256Hex env.saltSecret classId info.startIso)
               now roster.students
               ⟨logGetD log (classId ++ ":" ++ session), [], []⟩).1.attended.length
               - (closeLoop env pub classId session
                 (deriveSessionSalt env.hmacSha256Hex env.saltSecret classId info.startIso)
                 now roster.students
                 ⟨logGetD log (classId ++ ":" ++ session), [], []⟩).1.absentees.length)
             (closeLoop env pub classId session
               (deriveSessionSalt env.hmacSha256Hex env.saltSecret classId info.startIso)
               now roster.students
               ⟨logGetD log (classId ++ ":" ++ session), [], []⟩).1.absentees.length
             (closeLoop env pub classId session
               (deriveSessionSalt env.hmacSha256Hex env.saltSecret classId info.startIso)
               now roster.students
               ⟨logGetD log (classId ++ ":" ++ session), [], []⟩).1.absentees)
        else
          (if logHas log (classId ++ ":" ++ session) then
            logSet log (classId ++ ":" ++ session)
              (closeLoop env pub classId session
                (deriveSessionSalt env.hmacSha256Hex env.saltSecret classId info.startIso)
                now roster.students
                ⟨logGetD log (classId ++ ":" ++ session), [], []⟩).1.attended
           else log,
           (closeLoop env pub classId session
             (deriveSessionSalt env.hmacSha256Hex env.saltSecret classId info.startIso)
             now roster.students
             ⟨logGetD log (classId ++ ":" ++ session), [], []⟩).1.published,
           CloseRes.serverError "publish failed")) := by
  rw [closeSession, if_neg (by simp [strFalsy, hc1, hs1])]
  simp only [Option.getD_some, hfind, hroster]

/-- C3: after a closeSession in which every publish succeeded, a second
closeSession for the same session marks zero absentees (markedAbsent = 0 and
an empty absentees array), publishes nothing, and leaves the log as the
first close left it. -/
theorem c3_reconciliation_idempotence (env : Env) (pub : Payload → Option String)
    (now now2 : Int) (log : AttLog) (classId session salt : String)
    (info : SessionInfo) (roster : Roster)
    (hc1 : classId ≠ "") (hs1 : session ≠ "")
    (hfind : findSession env classId session = some info)
    (hroster : env.rosterData classId = some roster)
    (hpub : ∀ p, (pub p).isSome = true)
    (hsalt : salt = deriveSessionSalt env.hmacSha256Hex env.saltSecret classId info.startIso) :
    ∃ n : Nat,
      closeSession env pub now2
          (closeSession env pub now log ⟨some classId, some session⟩).1
          ⟨some classId, some session⟩
        = ((closeSession env pub now log ⟨some classId, some session⟩).1, [],
           CloseRes.success classId session roster.students.length n 0 []) := by
  subst hsalt
  set salt := deriveSessionSalt env.hmacSha256Hex env.saltSecret classId info.startIso
    with hsaltdef
  obtain ⟨hok1, hmono1, hcov1⟩ := closeLoop_ok_mono_covers env pub classId session salt now
    hpub roster.students ⟨logGetD log (classId ++ ":" ++ session), [], []⟩
  have hrun1 := closeSession_run env pub now log classId session info roster hc1 hs1 hfind hroster
  rw [← hsaltdef] at hrun1
  rw [if_pos hok1] at hrun1
  set A1 := (closeLoop env pub classId session salt now roster.students
    ⟨logGetD log (classId ++ ":" ++ session), [], []⟩).1.attended with hA1
  have hlog1 : (closeSession env pub now log ⟨some classId, some session⟩).1
      = logSet log (classId ++ ":" ++ session) A1 := by rw [hrun1]
  have hget1 : logGetD (logSet log (classId ++ ":" ++ session) A1)
      (classId ++ ":" ++ session) = A1 := logGetD_logSet_self _ _ _
  have hall : ∀ s ∈ roster.students,
      setHas (CloseAcc.mk A1 [] []).attended (studentHash env salt s) = true := by
    intro s hs
    exact (setHas_iff _ _).mpr (hcov1 s hs)
  have hloop2 : closeLoop env pub classId session salt now2 roster.students ⟨A1, [], []⟩
      = (⟨A1, [], []⟩, true) :=
    closeLoop_all_present env pub classId session salt now2 roster.students ⟨A1, [], []⟩ hall
  have hrun2 := closeSession_run env pub now2
    (logSet log (classId ++ ":" ++ session) A1) classId session info roster hc1 hs1 hfind hroster
  rw [← hsaltdef] at hrun2
  rw [hget1, hloop2] at hrun2
  simp only [if_true] at hrun2
  refine ⟨A1.length, ?_⟩
  rw [hlog1, hrun2, logSet_logSet]
  simp

/-- Witness for C3: closing the envC session twice in a row from logA, the
second close reports zero marked absentees and publishes nothing. -/
theorem c3_witness :
    ∃ n : Nat,
      closeSession envC pubOk 9
          (closeSession envC pubOk 7 logA ⟨some "c", some "s"⟩).1
          ⟨some "c", some "s"⟩
        = ((closeSession envC pubOk 7 logA ⟨some "c", some "s"⟩).1, [],
           CloseRes.success "c" "s" rosterC.students.length n 0 []) :=
  c3_reconciliation_idempotence envC pubOk 7 9 logA "c" "s" "c:T" ⟨"s", "T"⟩ rosterC
    (by decide) (by decide) rfl rfl (fun p => rfl) rfl

/-- C2 counterexample: from ledger logA (A present), a publisher that fails
exactly on pseudonym "0xBc:T" but would succeed on "0xCc:T" makes
closeSession answer one blanket 500 with nothing published at all — the loop
does not continue past B to C and no per-absentee failure report is given —
and a retry with an always-succeeding publisher re-attempts both B and C,
not exactly the failed B. -/
theorem c2_counterexample :
    (closeSession envC pubFailB 0 logA creqC).2.2 = CloseRes.serverError "publish failed"
    ∧ (closeSession envC pubFailB 0 logA creqC).2.1 = []
    ∧ pubFailB (closePayload "c" "s" "0xCc:T" 0) = some "ct"
    ∧ (closeSession envC pubFailB 0 logA creqC).1 = logA
    ∧ (closeSession envC pubOk 1 (closeSession envC pubFailB 0 logA creqC).1 creqC).2.1
      = [closePayload "c" "s" "0xBc:T" 1, closePayload "c" "s" "0xCc:T" 1] := by
  decide

/-- C2 (amended): when the publish for one absentee fails, closeSession
aborts the roster loop at that absentee rather than continuing: the whole
request is answered with a single 500 error and no per-absentee report, the
messages published are exactly those for absentees before the failed one,
the failed pseudonym is not added to the ledger, and a subsequent
closeSession with a succeeding publisher re-attempts the failed pseudonym
(publishing its absent record then). -/
theorem c2_publish_failure_aborts (env : Env) (pub pub2 : Payload → Option String)
    (now now2 : Int) (log : AttLog) (classId session salt : String)
    (info : SessionInfo) (roster : Roster) (ss1 ss2 : List Student) (st : Student)
    (hc1 : classId ≠ "") (hs1 : session ≠ "")
    (hfind : findSession env classId session = some info)
    (hroster : env.rosterData classId = some roster)
    (hsalt : salt = deriveSessionSalt env.hmacSha256Hex env.saltSecret classId info.startIso)
    (hsplit : roster.students = ss1 ++ st :: ss2)
    (hok1 : ∀ s ∈ ss1,
      (pub (closePayload classId session (studentHash env salt s) now)).isSome = true)
    (hfail : pub (closePayload classId session (studentHash env salt st) now) = none)
    (hnotS0 : studentHash env salt st ∉ logGetD log (classId ++ ":" ++ session))
    (hnot1 : studentHash env salt st ∉ ss1.map (studentHash env salt))
    (hpub2 : ∀ p, (pub2 p).isSome = true) :
    (closeSession env pub now log ⟨some classId, some session⟩).2.2
      = CloseRes.serverError "publish failed"
    ∧ setHas (logGetD (closeSession env pub now log ⟨some classId, some session⟩).1
        (classId ++ ":" ++ session)) (studentHash env salt st) = false
    ∧ (∀ p ∈ (closeSession env pub now log ⟨some classId, some session⟩).2.1,
        ∃ s ∈ ss1, p = closePayload classId session (studentHash env salt s) now)
    ∧ closePayload classId session (studentHash env salt st) now2
        ∈ (closeSession env pub2 now2
            (closeSession env pub now log ⟨some classId, some session⟩).1
            ⟨some classId, some session⟩).2.1 := by
  subst hsalt
  set salt := deriveSessionSalt env.hmacSha256Hex env.saltSecret classId info.startIso
    with hsaltdef
  set S0 := logGetD log (classId ++ ":" ++ session) with hS0
  set r1 := closeLoop env pub classId session salt now ss1 ⟨S0, [], []⟩ with hr1
  have hr1ok : r1.2 = true := by
    rw [hr1]
    exact closeLoop_ok_of_pub env pub classId session salt now ss1 ⟨S0, [], []⟩ hok1
  obtain ⟨hatt1, hpubs1, hmabs1, hmpub1⟩ :=
    closeLoop_sub env pub classId session salt now ss1 ⟨S0, [], []⟩
  rw [← hr1] at hatt1 hpubs1 hmabs1 hmpub1
  have hstatt : studentHash env salt st ∉ r1.1.attended := by
    intro hx
    rcases hatt1 _ hx with h | ⟨s, hs, he⟩
    · exact hnotS0 h
    · exact hnot1 (by rw [he]; exact List.mem_map_of_mem _ hs)
  have hfalse : setHas r1.1.attended (studentHash env salt st) = false :=
    Bool.eq_false_iff.mpr (fun hc => hstatt ((setHas_iff _ _).mp hc))
  have hloop1 : closeLoop env pub classId session salt now (ss1 ++ st :: ss2) ⟨S0, [], []⟩
      = (r1.1, false) := by
    rw [closeLoop_append, ← hr1, if_pos hr1ok]
    exact closeLoop_cons_pub_fail env pub classId session salt now st ss2 r1.1 hfalse hfail
  have hrun1 : closeSession env pub now log ⟨some classId, some session⟩
      = (if logHas log (classId ++ ":" ++ session) then
           logSet log (classId ++ ":" ++ session) r1.1.attended
         else log, r1.1.published, CloseRes.serverError "publish failed") := by
    rw [closeSession_run env pub now log classId session info roster hc1 hs1 hfind hroster]
    rw [← hsaltdef, hsplit, ← hS0, hloop1]
    rfl
  have hgetnil : logHas log (classId ++ ":" ++ session) = false →
      logGetD log (classId ++ ":" ++ session) = [] := by
    intro h
    rw [logHas] at h
    rw [logGetD]
    cases hf : logFind log (classId ++ ":" ++ session) with
    | none => rfl
    | some v => rw [hf] at h; simp at h
  have hconc2 : setHas (logGetD (closeSession env pub now log
      ⟨some classId, some session⟩).1 (classId ++ ":" ++ session))
      (studentHash env salt st) = false := by
    rw [hrun1]
    by_cases hkey : logHas log (classId ++ ":" ++ session) = true
    · simp only [hkey, if_true, logGetD_logSet_self]
      exact hfalse
    · rw [Bool.not_eq_true] at hkey
      simp only [hkey, Bool.false_eq_true, if_false]
      rw [← hS0, hS0, hgetnil hkey]
      rfl
  have hS1sub : ∀ x ∈ logGetD (closeSession env pub now log
      ⟨some classId, some session⟩).1 (classId ++ ":" ++ session),
      x ∈ S0 ∨ x ∈ ss1.map (studentHash env salt) := by
    intro x hx
    rw [hrun1] at hx
    by_cases hkey : logHas log (classId ++ ":" ++ session) = true
    · simp only [hkey, if_true, logGetD_logSet_self] at hx
      rcases hatt1 x hx with h | ⟨s, hs, he⟩
      · exact Or.inl h
      · exact Or.inr (by rw [he]; exact List.mem_map_of_mem _ hs)
    · rw [Bool.not_eq_true] at hkey
      simp only [hkey, Bool.false_eq_true, if_false] at hx
      rw [← hS0] at hx
      exact Or.inl hx
  have hstS1 : studentHash env salt st ∉ logGetD (closeSession env pub now log
      ⟨some classId, some session⟩).1 (classId ++ ":" ++ session) := by
    intro hx
    exact absurd ((setHas_iff _ _).mpr hx) (by rw [hconc2]; simp)
  refine ⟨by rw [hrun1], hconc2, ?_, ?_⟩
  · intro p hp
    rw [hrun1] at hp
    rcases hpubs1 p hp with h | ⟨s, hs, he⟩
    · exact absurd h (List.not_mem_nil p)
    · exact ⟨s, hs, he⟩
  · set log1 := (closeSession env pub now log ⟨some classId, some session⟩).1 with hlog1
    set S1 := logGetD log1 (classId ++ ":" ++ session) with hS1
    set r2a := closeLoop env pub2 classId session salt now2 ss1 ⟨S1, [], []⟩ with hr2a
    obtain ⟨hok2a, hmono2a, hcov2a⟩ := closeLoop_ok_mono_covers env pub2 classId session
      salt now2 hpub2 ss1 ⟨S1, [], []⟩
    rw [← hr2a] at hok2a hmono2a hcov2a
    obtain ⟨hatt2, hpubs2, hmabs2, hmpub2⟩ :=
      closeLoop_sub env pub2 classId session salt now2 ss1 ⟨S1, [], []⟩
    rw [← hr2a] at hatt2 hpubs2 hmabs2 hmpub2
    have hst2 : setHas r2a.1.attended (studentHash env salt st) = false := by
      refine Bool.eq_false_iff.mpr (fun hc => ?_)
      rcases hatt2 _ ((setHas_iff _ _).mp hc) with h | ⟨s, hs, he⟩
      · exact hstS1 h
      · exact hnot1 (by rw [he]; exact List.mem_map_of_mem _ hs)
    obtain ⟨m, hm⟩ := Option.isSome_iff_exists.mp
      (hpub2 (closePayload classId session (studentHash env salt st) now2))
    have hstep := closeLoop_cons_pub_ok env pub2 classId session salt now2 st ss2 r2a.1
      m hst2 hm
    have hfull2 : closeLoop env pub2 classId session salt now2 (ss1 ++ st :: ss2) ⟨S1, [], []⟩
        = closeLoop env pub2 classId session salt now2 ss2
            (stepAcc env classId session salt now2 st r2a.1) := by
      rw [closeLoop_append, ← hr2a, if_pos hok2a, hstep]
    obtain ⟨hokfull, _, _⟩ := closeLoop_ok_mono_covers env pub2 classId session
      salt now2 hpub2 (ss1 ++ st :: ss2) ⟨S1, [], []⟩
    have hmem : closePayload classId session (studentHash env salt st) now2
        ∈ (closeLoop env pub2 classId session salt now2 (ss1 ++ st :: ss2)
            ⟨S1, [], []⟩).1.published := by
      rw [hfull2]
      obtain ⟨_, _, _, hmono⟩ := closeLoop_sub env pub2 classId session salt now2 ss2
        (stepAcc env classId session salt now2 st r2a.1)
      refine hmono _ ?_
      rw [stepAcc]
      exact List.mem_append.mpr (Or.inr (by simp))
    rw [closeSession_run env pub2 now2 log1 classId session info roster hc1 hs1 hfind hroster]
    rw [← hsaltdef, hsplit, ← hS1, if_pos hokfull]
    exact hmem

/-- Witness for C2 (amended): publisher failing exactly on student B of envC
with students split as [A] , B, [C]. -/
theorem c2_witness :
    (closeSession envC pubFailB 3 logA ⟨some "c", some "s"⟩).2.2
      = CloseRes.serverError "publish failed"
    ∧ setHas (logGetD (closeSession envC pubFailB 3 logA ⟨some "c", some "s"⟩).1
        ("c" ++ ":" ++ "s")) (studentHash envC "c:T" ⟨"s-002", "B"⟩) = false
    ∧ (∀ p ∈ (closeSession envC pubFailB 3 logA ⟨some "c", some "s"⟩).2.1,
        ∃ s ∈ [(⟨"s-001", "A"⟩ : Student)],
          p = closePayload "c" "s" (studentHash envC "c:T" s) 3)
    ∧ closePayload "c" "s" (studentHash envC "c:T" ⟨"s-002", "B"⟩) 5
        ∈ (closeSession envC pubOk 5
            (closeSession envC pubFailB 3 logA ⟨some "c", some "s"⟩).1
            ⟨some "c", some "s"⟩).2.1 :=
  c2_publish_failure_aborts envC pubFailB pubOk 3 5 logA "c" "s" "c:T" ⟨"s", "T"⟩
    rosterC [⟨"s-001", "A"⟩] [⟨"s-003", "C"⟩] ⟨"s-002", "B"⟩
    (by decide) (by decide) rfl rfl rfl rfl
    (by decide) (by decide) (by decide) (by decide) (fun p => rfl)

end EduAir
